import Mathlib

/-!
# afero: the filesystem abstraction contract

A verification development over `afero.go`: the two interface declarations
(`File`, `Fs`), the wrapper struct `Afero`, and the package-level block of
error variables.

* Go `error` values built by `errors.New` are pointers; `==` on them is pointer
  identity.  They are embedded as an address plus the text, and allocation is
  explicit state passing over a `Heap`.
* Interface declarations are embedded twice: as tables of method signatures
  (what the declaration says) and as records of state-passing functions (what a
  value of the interface type is).
-/

set_option autoImplicit false

namespace afero

/-! ## Go error values and `errors.New` -/

/-- Value of the Go interface type `error` whose dynamic type is
`*errors.errorString`: the pointer held by the interface and the text stored
behind it. -/
structure GoError where
  ptr : Nat
  text : String
deriving DecidableEq, Repr

/-- Go's `==` on two `error` interface values of dynamic type
`*errors.errorString`: they are equal exactly when the two pointers are. -/
def GoError.identical (a b : GoError) : Bool :=
  a.ptr == b.ptr

/-- Allocation state: every address below `next` is in use. -/
structure Heap where
  next : Nat
deriving DecidableEq, Repr

/-- Go's `errors.New(text)`: returns `&errorString{text}`, a pointer to a newly
allocated value, so each call yields an error distinct from every error that
exists already, even when the text is the same. -/
def errorsNew (text : String) (h : Heap) : GoError × Heap :=
  (⟨h.next, text⟩, ⟨h.next + 1⟩)

/-- Go's `errors.Is(err, target)` on an error given by its unwrap chain (the
error itself first): some error of the chain is `==` to the target. -/
def errorsIs (chain : List GoError) (target : GoError) : Bool :=
  chain.any (fun e => e.identical target)

/-! ## The part of the standard library the package imports -/

/-- The error variables of Go's `os` and `io` packages.  They are initialised
before any package that imports them. -/
structure Stdlib where
  ErrInvalid : GoError
  ErrPermission : GoError
  ErrExist : GoError
  ErrNotExist : GoError
  ErrClosed : GoError
  EOF : GoError
deriving DecidableEq, Repr

/-- Initialisation of the standard library's error variables: `io.EOF` and the
five errors of `internal/oserror` that `os` re-exports, each an `errors.New`. -/
def stdlibInit (h : Heap) : Stdlib × Heap :=
  let (eof, h) := errorsNew "EOF" h
  let (inval, h) := errorsNew "invalid argument" h
  let (perm, h) := errorsNew "permission denied" h
  let (exist, h) := errorsNew "file already exists" h
  let (notExist, h) := errorsNew "file does not exist" h
  let (closed, h) := errorsNew "file already closed" h
  (⟨inval, perm, exist, notExist, closed, eof⟩, h)

/-- The two `os` errors read by `afero.go` were allocated before the package
initialises: `os` is imported, so it is initialised first. -/
def Stdlib.Allocated (lib : Stdlib) (h : Heap) : Prop :=
  lib.ErrNotExist.ptr < h.next ∧ lib.ErrExist.ptr < h.next

instance (lib : Stdlib) (h : Heap) : Decidable (lib.Allocated h) := by
  unfold Stdlib.Allocated; infer_instance

/-! ## The package-level `var ( ... )` block, lines 96-103 -/

/-- Right-hand side of one variable of the block. -/
inductive Initializer where
  /-- The call `errors.New(text)`. -/
  | errorsNew (text : String)
  /-- The selector `os.ErrNotExist`. -/
  | osErrNotExist
  /-- The selector `os.ErrExist`. -/
  | osErrExist
deriving DecidableEq, Repr

/-- One line `name = initializer` of the block. -/
structure VarDecl where
  name : String
  init : Initializer
deriving DecidableEq, Repr

/-- The `var ( ... )` block of `afero.go`, in source order. -/
def varBlock : List VarDecl :=
  [ ⟨"ErrFileClosed", .errorsNew "File is closed"⟩,
    ⟨"ErrOutOfRange", .errorsNew "Out of range"⟩,
    ⟨"ErrTooLarge", .errorsNew "Too large"⟩,
    ⟨"ErrFileNotFound", .osErrNotExist⟩,
    ⟨"ErrFileExists", .osErrExist⟩,
    ⟨"ErrDestinationExists", .osErrExist⟩ ]

/-- Evaluation of one initializer. -/
def Initializer.eval (lib : Stdlib) (h : Heap) : Initializer → GoError × Heap
  | .errorsNew text => afero.errorsNew text h
  | .osErrNotExist => (lib.ErrNotExist, h)
  | .osErrExist => (lib.ErrExist, h)

/-- Package initialisation: the variables of a block are initialised in
declaration order (none depends on another), threading the heap. -/
def initBlock (lib : Stdlib) : List VarDecl → Heap → List (String × GoError) × Heap
  | [], h => ([], h)
  | d :: ds, h =>
    let (e, h1) := d.init.eval lib h
    let (rest, h2) := initBlock lib ds h1
    ((d.name, e) :: rest, h2)

/-- The package's variables after initialisation. -/
def packageVars (lib : Stdlib) (h : Heap) : List (String × GoError) :=
  (initBlock lib varBlock h).1

/-- Value of the package variable `name`, if the package declares it. -/
def lookupVar (lib : Stdlib) (h : Heap) (name : String) : Option GoError :=
  (packageVars lib h).lookup name

/-- The standard library as initialised on an empty heap, and the heap it
leaves for the packages initialised after it. -/
def startup : Stdlib × Heap :=
  stdlibInit ⟨0⟩

/-- The six failure conditions of the shared error vocabulary. -/
inductive Condition where
  | notFound
  | alreadyExists
  | closed
  | outOfRange
  | tooLarge
  | destinationExists
deriving DecidableEq, Repr

/-- The package variable that stands for a condition. -/
def Condition.sentinel : Condition → String
  | .notFound => "ErrFileNotFound"
  | .alreadyExists => "ErrFileExists"
  | .closed => "ErrFileClosed"
  | .outOfRange => "ErrOutOfRange"
  | .tooLarge => "ErrTooLarge"
  | .destinationExists => "ErrDestinationExists"

/-! ## The interface declarations, as tables of method signatures -/

/-- The Go types that occur in the signatures of `afero.go`. -/
inductive GoType where
  | string
  | int
  | int64
  | error
  /-- A named type `pkg.name`; the package is empty for a type of this package. -/
  | named (pkg : String) (name : String)
  /-- The slice type `[]elem`. -/
  | slice (elem : GoType)
  /-- The byte slice `[]byte`. -/
  | bytes
deriving DecidableEq, Repr

/-- One method of an interface: name, parameter types, result types. -/
structure MethodSig where
  name : String
  params : List GoType
  results : List GoType
deriving DecidableEq, Repr

/-- An interface declaration: the interfaces it embeds and the methods it
lists itself. -/
structure InterfaceDecl where
  embeds : List (String × List MethodSig)
  methods : List MethodSig
deriving DecidableEq, Repr

/-- The method set of an interface: the methods of the embedded interfaces
followed by its own. -/
def InterfaceDecl.methodSet (d : InterfaceDecl) : List MethodSig :=
  (d.embeds.map Prod.snd).flatten ++ d.methods

/-- Names of the methods of an interface. -/
def InterfaceDecl.methodNames (d : InterfaceDecl) : List String :=
  d.methodSet.map MethodSig.name

/-- Names of the methods an interface obtains through embedding. -/
def InterfaceDecl.embeddedNames (d : InterfaceDecl) : List String :=
  (d.embeds.map Prod.snd).flatten.map MethodSig.name

/-- The type `File` of this package. -/
def tFile : GoType := .named "" "File"

/-- The type `os.FileInfo`. -/
def tFileInfo : GoType := .named "os" "FileInfo"

/-- The type `os.FileMode`. -/
def tFileMode : GoType := .named "os" "FileMode"

/-- The type `time.Time`. -/
def tTime : GoType := .named "time" "Time"

/-- The six interfaces of Go's `io` package that `File` embeds, each with its
single method. -/
def ioInterfaces : List (String × List MethodSig) :=
  [ ("io.Closer", [⟨"Close", [], [.error]⟩]),
    ("io.Reader", [⟨"Read", [.bytes], [.int, .error]⟩]),
    ("io.ReaderAt", [⟨"ReadAt", [.bytes, .int64], [.int, .error]⟩]),
    ("io.Seeker", [⟨"Seek", [.int64, .int], [.int64, .error]⟩]),
    ("io.Writer", [⟨"Write", [.bytes], [.int, .error]⟩]),
    ("io.WriterAt", [⟨"WriteAt", [.bytes, .int64], [.int, .error]⟩]) ]

/-- The declaration `type File interface { ... }`, lines 37-52. -/
def FileDecl : InterfaceDecl where
  embeds := ioInterfaces
  methods :=
    [ ⟨"Name", [], [.string]⟩,
      ⟨"Readdir", [.int], [.slice tFileInfo, .error]⟩,
      ⟨"Readdirnames", [.int], [.slice .string, .error]⟩,
      ⟨"Stat", [], [tFileInfo, .error]⟩,
      ⟨"Sync", [], [.error]⟩,
      ⟨"Truncate", [.int64], [.error]⟩,
      ⟨"WriteString", [.string], [.int, .error]⟩ ]

/-- The declaration `type Fs interface { ... }`, lines 57-94. -/
def FsDecl : InterfaceDecl where
  embeds := []
  methods :=
    [ ⟨"Create", [.string], [tFile, .error]⟩,
      ⟨"Mkdir", [.string, tFileMode], [.error]⟩,
      ⟨"MkdirAll", [.string, tFileMode], [.error]⟩,
      ⟨"Open", [.string], [tFile, .error]⟩,
      ⟨"OpenFile", [.string, .int, tFileMode], [tFile, .error]⟩,
      ⟨"Remove", [.string], [.error]⟩,
      ⟨"RemoveAll", [.string], [.error]⟩,
      ⟨"Rename", [.string, .string], [.error]⟩,
      ⟨"Stat", [.string], [tFileInfo, .error]⟩,
      ⟨"Name", [], [.string]⟩,
      ⟨"Chmod", [.string, tFileMode], [.error]⟩,
      ⟨"Chtimes", [.string, tTime, tTime], [.error]⟩ ]

/-- Result types of the method `name` of an interface, if it has one. -/
def InterfaceDecl.resultsOf (d : InterfaceDecl) (name : String) : Option (List GoType) :=
  (d.methodSet.find? (fun m => m.name == name)).map MethodSig.results

/-- The declaration `type Afero struct { Fs }`, lines 32-34: the fields of the
struct, an embedded field being named by its type, and the methods declared
with `Afero` as receiver (the file declares none). -/
structure StructDecl where
  embedded : List String
  methods : List MethodSig
deriving DecidableEq, Repr

/-- The struct `Afero`. -/
def AferoDecl : StructDecl where
  embedded := ["Fs"]
  methods := []

/-- Method set of a struct type with one embedded interface: the methods
declared on the struct itself (depth 0), then the methods of the embedded
interface (depth 1) that no declared method of the same name shadows. -/
def StructDecl.methodSet (s : StructDecl) (embedded : InterfaceDecl) : List MethodSig :=
  s.methods ++
    embedded.methodSet.filter (fun m => !(s.methods.any (fun d => d.name == m.name)))

/-! ## Values of the interface types, as records of state-passing functions

A method of a Go value may read and change the state behind it; `σ` is that
state, and every method maps a state to its results and the next state.  A
result of type `error` is `none` for `nil`. -/

/-- Metadata of an entry, the content of an `os.FileInfo`. -/
structure FileInfo where
  name : String
  size : Int
  mode : Nat
  modTime : Int
  isDir : Bool
deriving DecidableEq, Repr

/-- A value of the interface type `File`: one function for each of its
thirteen methods.  `Read` and `ReadAt` take the length of the buffer and return
the bytes stored into it, whose number is the result `n`. -/
structure File (σ : Type) where
  Close : σ → Option GoError × σ
  Read : Nat → σ → (List UInt8 × Option GoError) × σ
  ReadAt : Nat → Int → σ → (List UInt8 × Option GoError) × σ
  Seek : Int → Int → σ → (Int × Option GoError) × σ
  Write : List UInt8 → σ → (Int × Option GoError) × σ
  WriteAt : List UInt8 → Int → σ → (Int × Option GoError) × σ
  Name : σ → String × σ
  Readdir : Int → σ → (List FileInfo × Option GoError) × σ
  Readdirnames : Int → σ → (List String × Option GoError) × σ
  Stat : σ → (Option FileInfo × Option GoError) × σ
  Sync : σ → Option GoError × σ
  Truncate : Int → σ → Option GoError × σ
  WriteString : String → σ → (Int × Option GoError) × σ

/-- A value of the interface type `Fs`: one function for each of its twelve
methods.  A result of type `File` is `none` for the nil interface value. -/
structure Fs (σ : Type) where
  Create : String → σ → (Option (File σ) × Option GoError) × σ
  Mkdir : String → Nat → σ → Option GoError × σ
  MkdirAll : String → Nat → σ → Option GoError × σ
  Open : String → σ → (Option (File σ) × Option GoError) × σ
  OpenFile : String → Int → Nat → σ → (Option (File σ) × Option GoError) × σ
  Remove : String → σ → Option GoError × σ
  RemoveAll : String → σ → Option GoError × σ
  Rename : String → String → σ → Option GoError × σ
  Stat : String → σ → (Option FileInfo × Option GoError) × σ
  Name : σ → String × σ
  Chmod : String → Nat → σ → Option GoError × σ
  Chtimes : String → Int → Int → σ → Option GoError × σ

/-- A value of the struct type `Afero`: its single, embedded field. -/
structure Afero (σ : Type) where
  Fs : afero.Fs σ

/-- The struct `Afero` used as an `Fs`: `Afero` declares no method, so every
selector `a.M` for a method `M` of `Fs` is the promoted method `a.Fs.M`. -/
def Afero.asFs {σ : Type} (a : Afero σ) : afero.Fs σ where
  Create := fun name w => a.Fs.Create name w
  Mkdir := fun name perm w => a.Fs.Mkdir name perm w
  MkdirAll := fun path perm w => a.Fs.MkdirAll path perm w
  Open := fun name w => a.Fs.Open name w
  OpenFile := fun name flag perm w => a.Fs.OpenFile name flag perm w
  Remove := fun name w => a.Fs.Remove name w
  RemoveAll := fun path w => a.Fs.RemoveAll path w
  Rename := fun oldname newname w => a.Fs.Rename oldname newname w
  Stat := fun name w => a.Fs.Stat name w
  Name := fun w => a.Fs.Name w
  Chmod := fun name mode w => a.Fs.Chmod name mode w
  Chtimes := fun name atime mtime w => a.Fs.Chtimes name atime mtime w

/-! ## A backend, modelled from the specification

`afero.go` declares the two interfaces and no implementation of them.  What a
backend does is taken from the specification: sections 3 (data model), 4.1
(filesystem capability) and 4.2 (file handle capability). -/

/-- Modelled from the spec: canonical form of a path, which no source file
defines.  Section 3: "a string identifying a filesystem entry, using
forward-slash separators, interpreted relative to a backend-defined root".  The
canonical form is the list of segments from the root. -/
abbrev Path := List String

/-- Modelled from the spec: helper of `canon`; splits a string at every slash. -/
def splitSlash : List Char → List (List Char)
  | [] => [[]]
  | c :: cs =>
    match splitSlash cs with
    | [] => if c = '/' then [[]] else [[c]]
    | s :: ss => if c = '/' then [] :: s :: ss else (c :: s) :: ss

/-- Modelled from the spec: the canonicalisation policy of the backend, which
no source file defines.  Section 3: path strings that differ by a "trailing
slash, redundant `.` segments" resolve to the same entry: empty segments and
`.` segments are dropped. -/
def canon (p : String) : Path :=
  ((splitSlash p.toList).map String.mk).filter (fun s => s != "" && s != ".")

/-- Modelled from the spec: an entry of the namespace with its metadata, which
no source file defines.  Section 3: "size in bytes, modification time,
permission bits, a flag distinguishing regular files from directories", and
"mode bits and two timestamps (last access, last modification)". -/
structure Entry where
  isDir : Bool
  content : List UInt8
  mode : Nat
  atime : Int
  mtime : Int
deriving DecidableEq, Repr

/-- Modelled from the spec: the states of a file handle, which no source file
defines.  Section 4.2: "handle states are {open-readable, open-writable,
open-readable-writable, closed}". -/
inductive HandleState where
  | openReadable
  | openWritable
  | openReadWrite
  | closed
deriving DecidableEq, Repr

/-- Modelled from the spec: a file handle, which no source file defines.
Section 3: "an open, stateful cursor over one entry", with "an implicit
read/write position"; section 9: "a capability/state tag on the handle
(directory vs regular file)".  `name` is "the path used to open the handle",
`dirPos` the cursor of directory enumeration, `append` the append flag of
`OpenFile`. -/
structure Handle where
  name : String
  path : Path
  isDir : Bool
  append : Bool
  state : HandleState
  pos : Nat
  dirPos : Nat
deriving DecidableEq, Repr

/-- Modelled from the spec: the namespace of a backend, which no source file
defines: entries by canonical path. -/
abbrev Entries := List (Path × Entry)

/-- Modelled from the spec: the state of a backend, which no source file
defines: its namespace and the handles it has given out, a handle being
identified by its index. -/
structure World where
  entries : Entries
  handles : List Handle
deriving DecidableEq, Repr

/-- Modelled from the spec: what is fixed for one backend, which no source file
defines: the error values it returns, the bits of the `flag` argument of
`OpenFile`, and the choices the specification leaves to the backend.  The first
five errors are the package's sentinels, the next three come from the standard
library ("permission-class error", "end-of-stream signal"), the last four are
the backend's own ("creation error" and the failures the specification does not
classify). -/
structure Backend where
  ErrFileClosed : GoError
  ErrOutOfRange : GoError
  ErrFileNotFound : GoError
  ErrFileExists : GoError
  ErrDestinationExists : GoError
  ErrPermission : GoError
  ErrInvalid : GoError
  EOF : GoError
  ErrCreate : GoError
  ErrNotDir : GoError
  ErrIsDir : GoError
  ErrNotEmpty : GoError
  O_WRONLY : Nat
  O_RDWR : Nat
  O_APPEND : Nat
  O_CREATE : Nat
  O_EXCL : Nat
  O_TRUNC : Nat
  /-- Section 4.1, Create: "or the backend is read-only". -/
  readOnly : Bool
  /-- Section 4.2, Close: "idempotent-or-erroring on double close is
  backend-defined". -/
  doubleCloseErrors : Bool
  /-- Section 4.1, Name: "a fixed, backend-identifying label". -/
  label : String
  /-- Permission bits of a file made by `Create`. -/
  createMode : Nat
deriving DecidableEq, Repr

/-- Modelled from the spec: test of one of the "independent bits" of the `flag`
argument, Go's `flag & mask != 0` on a 64-bit `int`. -/
def hasBit (flag : Int) (mask : Nat) : Bool :=
  ((flag % 2 ^ 64).toNat &&& mask) != 0

/-- Modelled from the spec: the directory that contains a path ("the immediate
parent"); the root has none. -/
def parentOf : Path → Option Path
  | [] => none
  | s :: ss => some (s :: ss).dropLast

/-- Modelled from the spec: the condition "the parent directory exists": the
parent of the path has an entry, which is a directory. -/
def hasParentDir (es : Entries) (p : Path) : Bool :=
  match parentOf p with
  | none => false
  | some q =>
    match es.lookup q with
    | some e => e.isDir
    | none => false

/-- Modelled from the spec: helper of the backend; stores an entry at a path, in
place when the path has one already. -/
def putEntry (p : Path) (e : Entry) : Entries → Entries
  | [] => [(p, e)]
  | (q, x) :: rest => if p == q then (p, e) :: rest else (q, x) :: putEntry p e rest

/-- Modelled from the spec: helper of the backend; deletes the entry at a path. -/
def eraseEntry (p : Path) (es : Entries) : Entries :=
  es.filter (fun x => !(x.1 == p))

/-- Modelled from the spec: helper of the backend; the entries directly inside a
directory, in namespace order. -/
def childrenOf (es : Entries) (p : Path) : Entries :=
  es.filter (fun x => parentOf x.1 == some p)

/-- Modelled from the spec: metadata of an entry: "name (final path segment), size in bytes,
modification time, permission bits", directory flag. -/
def infoOf (p : Path) (e : Entry) : FileInfo :=
  ⟨p.getLast?.getD "", e.content.length, e.mode, e.mtime, e.isDir⟩

/-- Modelled from the spec: the handle is in a readable state. -/
def Handle.canRead (h : Handle) : Bool :=
  h.state == .openReadable || h.state == .openReadWrite

/-- Modelled from the spec: the handle is in a writable state. -/
def Handle.canWrite (h : Handle) : Bool :=
  h.state == .openWritable || h.state == .openReadWrite

/-- Modelled from the spec: helper of `Write`; content after `b` is written at
offset `off`: a gap between the old end and
`off` is filled with zero bytes. -/
def writeBytes (content : List UInt8) (off : Nat) (b : List UInt8) : List UInt8 :=
  content.take off ++ List.replicate (off - content.length) 0 ++ b ++
    content.drop (off + b.length)

/-- Modelled from the spec: helper of `Truncate`; content cut or zero-filled to
exactly `size` bytes. -/
def resize (content : List UInt8) (size : Nat) : List UInt8 :=
  content.take size ++ List.replicate (size - content.length) 0

/-! ### The file handle capability, section 4.2

Each operation is first a function of the handle and the namespace; "all
operations except Close and Name fail once state is closed", and the state is
"checked at each operation's entry". -/

/-- Modelled from the spec: `Read` of a backend's handle, which no source file
defines.  "sequential I/O advancing an internal cursor; Read returns an
end-of-stream signal distinct from a zero-length success when no more bytes
remain".  A handle on a directory is not usable for "content read/write". -/
def hRead (B : Backend) (n : Nat) (h : Handle) (es : Entries) :
    (List UInt8 × Option GoError) × Handle × Entries :=
  if h.state = .closed then (([], some B.ErrFileClosed), h, es)
  else if h.isDir then (([], some B.ErrIsDir), h, es)
  else if !h.canRead then (([], some B.ErrPermission), h, es)
  else
    match es.lookup h.path with
    | none => (([], some B.ErrFileNotFound), h, es)
    | some e =>
      if e.content.length ≤ h.pos then (([], some B.EOF), h, es)
      else
        let bs := (e.content.drop h.pos).take n
        ((bs, none), { h with pos := h.pos + bs.length }, es)

/-- Modelled from the spec: `ReadAt` of a backend's handle, which no source
file defines.  "positioned I/O that does not move the sequential cursor". -/
def hReadAt (B : Backend) (n : Nat) (off : Int) (h : Handle) (es : Entries) :
    (List UInt8 × Option GoError) × Handle × Entries :=
  if h.state = .closed then (([], some B.ErrFileClosed), h, es)
  else if h.isDir then (([], some B.ErrIsDir), h, es)
  else if !h.canRead then (([], some B.ErrPermission), h, es)
  else if off < 0 then (([], some B.ErrOutOfRange), h, es)
  else
    match es.lookup h.path with
    | none => (([], some B.ErrFileNotFound), h, es)
    | some e =>
      if e.content.length ≤ off.toNat then (([], some B.EOF), h, es)
      else (((e.content.drop off.toNat).take n, none), h, es)

/-- Modelled from the spec: `Write` of a backend's handle, which no source file
defines.  "sequential I/O advancing an internal cursor"; "Write on a handle not
opened for writing fails with a permission-class error"; "append forces all
writes to occur at current end-of-file regardless of requested offset for
sequential writes". -/
def hWrite (B : Backend) (b : List UInt8) (h : Handle) (es : Entries) :
    (Int × Option GoError) × Handle × Entries :=
  if h.state = .closed then ((0, some B.ErrFileClosed), h, es)
  else if h.isDir then ((0, some B.ErrIsDir), h, es)
  else if !h.canWrite then ((0, some B.ErrPermission), h, es)
  else
    match es.lookup h.path with
    | none => ((0, some B.ErrFileNotFound), h, es)
    | some e =>
      let off := if h.append then e.content.length else h.pos
      ((b.length, none), { h with pos := off + b.length },
        putEntry h.path { e with content := writeBytes e.content off b } es)

/-- Modelled from the spec: `WriteAt` of a backend's handle, which no source
file defines.  "positioned I/O that does not move the sequential cursor". -/
def hWriteAt (B : Backend) (b : List UInt8) (off : Int) (h : Handle) (es : Entries) :
    (Int × Option GoError) × Handle × Entries :=
  if h.state = .closed then ((0, some B.ErrFileClosed), h, es)
  else if h.isDir then ((0, some B.ErrIsDir), h, es)
  else if !h.canWrite then ((0, some B.ErrPermission), h, es)
  else if off < 0 then ((0, some B.ErrOutOfRange), h, es)
  else
    match es.lookup h.path with
    | none => ((0, some B.ErrFileNotFound), h, es)
    | some e =>
      ((b.length, none), h,
        putEntry h.path { e with content := writeBytes e.content off.toNat b } es)

/-- Modelled from the spec: `Seek` of a backend's handle, which no source file
defines.  "repositions the sequential cursor relative to start/current/end;
fails with an out-of-range error if the resulting position would be negative".
`whence` is 0 for the start, 1 for the current position, 2 for the end. -/
def hSeek (B : Backend) (offset : Int) (whence : Int) (h : Handle) (es : Entries) :
    (Int × Option GoError) × Handle × Entries :=
  if h.state = .closed then ((0, some B.ErrFileClosed), h, es)
  else if h.isDir then ((0, some B.ErrIsDir), h, es)
  else
    match es.lookup h.path with
    | none => ((0, some B.ErrFileNotFound), h, es)
    | some e =>
      if whence = 0 ∨ whence = 1 ∨ whence = 2 then
        let base : Int := if whence = 0 then 0 else if whence = 1 then h.pos
          else e.content.length
        if base + offset < 0 then ((0, some B.ErrOutOfRange), h, es)
        else ((base + offset, none), { h with pos := (base + offset).toNat }, es)
      else ((0, some B.ErrInvalid), h, es)

/-- Modelled from the spec: `Close` of a backend's handle, which no source file
defines.  "releases backend resources; idempotent-or-erroring on double close
is backend-defined"; the handle is closed afterwards. -/
def hClose (B : Backend) (h : Handle) (es : Entries) :
    Option GoError × Handle × Entries :=
  if h.state = .closed then
    (if B.doubleCloseErrors then some B.ErrFileClosed else none, h, es)
  else (none, { h with state := .closed }, es)

/-- Modelled from the spec: `Readdir` of a backend's handle, which no source
file defines.  "if count > 0, returns up to count entries and keeps cursor
position for subsequent calls, signaling end-of-stream once exhausted; if
count ≤ 0, returns all remaining entries in one call. Fails on a handle opened
from a non-directory entry." -/
def hReaddir (B : Backend) (count : Int) (h : Handle) (es : Entries) :
    (List FileInfo × Option GoError) × Handle × Entries :=
  if h.state = .closed then (([], some B.ErrFileClosed), h, es)
  else if !h.isDir then (([], some B.ErrNotDir), h, es)
  else
    let remaining := ((childrenOf es h.path).drop h.dirPos).map (fun x => infoOf x.1 x.2)
    if 0 < count then
      if remaining = [] then (([], some B.EOF), h, es)
      else
        let got := remaining.take count.toNat
        ((got, none), { h with dirPos := h.dirPos + got.length }, es)
    else ((remaining, none), { h with dirPos := h.dirPos + remaining.length }, es)

/-- Modelled from the spec: `Readdirnames` of a backend's handle, which no
source file defines.  "same enumeration contract as Readdir but returns bare
names instead of full metadata". -/
def hReaddirnames (B : Backend) (n : Int) (h : Handle) (es : Entries) :
    (List String × Option GoError) × Handle × Entries :=
  match hReaddir B n h es with
  | ((infos, err), h1, es1) => ((infos.map FileInfo.name, err), h1, es1)

/-- Modelled from the spec: `Stat` of a backend's handle, which no source file
defines.  "metadata of the open entry, reflecting its state at call time". -/
def hStat (B : Backend) (h : Handle) (es : Entries) :
    (Option FileInfo × Option GoError) × Handle × Entries :=
  if h.state = .closed then ((none, some B.ErrFileClosed), h, es)
  else
    match es.lookup h.path with
    | none => ((none, some B.ErrFileNotFound), h, es)
    | some e => ((some (infoOf h.path e), none), h, es)

/-- Modelled from the spec: `Sync` of a backend's handle, which no source file
defines.  "a no-op (success) for backends without buffering". -/
def hSync (B : Backend) (h : Handle) (es : Entries) : Option GoError × Handle × Entries :=
  if h.state = .closed then (some B.ErrFileClosed, h, es)
  else (none, h, es)

/-- Modelled from the spec: `Truncate` of a backend's handle, which no source
file defines.  "grows (zero-filling) or shrinks the entry to exactly size
bytes; fails with a permission-class error if the handle is read-only". -/
def hTruncate (B : Backend) (size : Int) (h : Handle) (es : Entries) :
    Option GoError × Handle × Entries :=
  if h.state = .closed then (some B.ErrFileClosed, h, es)
  else if h.isDir then (some B.ErrIsDir, h, es)
  else if !h.canWrite then (some B.ErrPermission, h, es)
  else if size < 0 then (some B.ErrOutOfRange, h, es)
  else
    match es.lookup h.path with
    | none => (some B.ErrFileNotFound, h, es)
    | some e =>
      (none, h, putEntry h.path { e with content := resize e.content size.toNat } es)

/-- Modelled from the spec: `WriteString` of a backend's handle, which no
source file defines.  "convenience equivalent to Write of the string's bytes;
same error semantics as Write". -/
def hWriteString (B : Backend) (s : String) (h : Handle) (es : Entries) :
    (Int × Option GoError) × Handle × Entries :=
  hWrite B s.toUTF8.toList h es

/-- Modelled from the spec: helper of the backend; runs an operation of a handle
on the handle with index `i` of a backend's
state; an index the backend never gave out is an invalid argument. -/
def onHandle {α : Type} (B : Backend) (i : Nat) (dflt : α)
    (op : Handle → Entries → (α × Option GoError) × Handle × Entries) (w : World) :
    (α × Option GoError) × World :=
  match w.handles[i]? with
  | none => ((dflt, some B.ErrInvalid), w)
  | some h =>
    match op h w.entries with
    | (r, h1, es1) => (r, ⟨es1, w.handles.set i h1⟩)

/-- Modelled from the spec: helper of the backend; `onHandle` for an operation
whose only result is an error. -/
def onHandleErr (B : Backend) (i : Nat)
    (op : Handle → Entries → Option GoError × Handle × Entries) (w : World) :
    Option GoError × World :=
  match w.handles[i]? with
  | none => (some B.ErrInvalid, w)
  | some h =>
    match op h w.entries with
    | (r, h1, es1) => (r, ⟨es1, w.handles.set i h1⟩)

/-- Modelled from the spec: the `File` value a backend returns for its handle
number `i`, which no source file defines.  `Name` "returns the path used to
open the handle", in every state. -/
def memFile (B : Backend) (i : Nat) : File World where
  Close := onHandleErr B i (hClose B)
  Read := fun n => onHandle B i [] (hRead B n)
  ReadAt := fun n off => onHandle B i [] (hReadAt B n off)
  Seek := fun offset whence => onHandle B i 0 (hSeek B offset whence)
  Write := fun b => onHandle B i 0 (hWrite B b)
  WriteAt := fun b off => onHandle B i 0 (hWriteAt B b off)
  Name := fun w => (match w.handles[i]? with | some h => h.name | none => "", w)
  Readdir := fun count => onHandle B i [] (hReaddir B count)
  Readdirnames := fun n => onHandle B i [] (hReaddirnames B n)
  Stat := onHandle B i none (hStat B)
  Sync := onHandleErr B i (hSync B)
  Truncate := fun size => onHandleErr B i (hTruncate B size)
  WriteString := fun s => onHandle B i 0 (hWriteString B s)

/-! ### The filesystem capability, section 4.1 -/

/-- Modelled from the spec: `Create` of a backend, which no source file
defines.  "creates a new regular file, truncating if one exists; returns an
open, writable file handle positioned at offset 0. Fails with a creation error
if the parent directory does not exist or the backend is read-only." -/
def memCreate (B : Backend) (name : String) (w : World) :
    (Option (File World) × Option GoError) × World :=
  if B.readOnly || !hasParentDir w.entries (canon name) then ((none, some B.ErrCreate), w)
  else
    let e : Entry :=
      match w.entries.lookup (canon name) with
      | some old => { old with isDir := false, content := [] }
      | none => ⟨false, [], B.createMode, 0, 0⟩
    ((some (memFile B w.handles.length), none),
      ⟨putEntry (canon name) e w.entries,
        w.handles ++ [⟨name, canon name, false, false, .openWritable, 0, 0⟩]⟩)

/-- Modelled from the spec: `Mkdir` of a backend, which no source file defines.
"creates exactly one new directory at path; fails with an already-exists error
if the entry exists, and a not-found-class error if the immediate parent does
not exist. Not recursive." -/
def memMkdir (B : Backend) (name : String) (perm : Nat) (w : World) : Option GoError × World :=
  match w.entries.lookup (canon name) with
  | some _ => (some B.ErrFileExists, w)
  | none =>
    if hasParentDir w.entries (canon name) then
      (none, ⟨putEntry (canon name) ⟨true, [], perm, 0, 0⟩ w.entries, w.handles⟩)
    else (some B.ErrFileNotFound, w)

/-- Modelled from the spec: helper of `MkdirAll`; adds a directory at each of the
given paths that has no entry yet. -/
def mkdirEach (perm : Nat) : List Path → Entries → Entries
  | [], es => es
  | q :: qs, es =>
    match es.lookup q with
    | some _ => mkdirEach perm qs es
    | none => mkdirEach perm qs (putEntry q ⟨true, [], perm, 0, 0⟩ es)

/-- Modelled from the spec: `MkdirAll` of a backend, which no source file
defines.  "creates path and every missing ancestor directory; succeeds (no
error) if path already exists and is a directory; fails if any existing path
segment is a non-directory entry". -/
def memMkdirAll (B : Backend) (path : String) (perm : Nat) (w : World) :
    Option GoError × World :=
  if (canon path).inits.any (fun q =>
      match w.entries.lookup q with
      | some e => !e.isDir
      | none => false) then (some B.ErrNotDir, w)
  else (none, ⟨mkdirEach perm (canon path).inits w.entries, w.handles⟩)

/-- Modelled from the spec: `Open` of a backend, which no source file defines.
"opens an existing entry for reading only; fails with a not-found error if
absent. Succeeds on directories". -/
def memOpen (B : Backend) (name : String) (w : World) :
    (Option (File World) × Option GoError) × World :=
  match w.entries.lookup (canon name) with
  | none => ((none, some B.ErrFileNotFound), w)
  | some e =>
    ((some (memFile B w.handles.length), none),
      ⟨w.entries, w.handles ++ [⟨name, canon name, e.isDir, false, .openReadable, 0, 0⟩]⟩)

/-- Modelled from the spec: helper of `OpenFile`; the handle state asked for by
the access bits of a flag. -/
def accessOf (B : Backend) (flag : Int) : HandleState :=
  if hasBit flag B.O_RDWR then .openReadWrite
  else if hasBit flag B.O_WRONLY then .openWritable
  else .openReadable

/-- Modelled from the spec: `OpenFile` of a backend, which no source file
defines.  "general open supporting a combination of
read/write/append/create/truncate/exclusive-create flags (flags are independent
bits, composable); semantics must match: exclusive-create + create together
fail if the entry already exists; truncate discards existing content on open;
append forces all writes to occur at current end-of-file". -/
def memOpenFile (B : Backend) (name : String) (flag : Int) (perm : Nat) (w : World) :
    (Option (File World) × Option GoError) × World :=
  match w.entries.lookup (canon name) with
  | some e =>
    if hasBit flag B.O_CREATE && hasBit flag B.O_EXCL then ((none, some B.ErrFileExists), w)
    else
      ((some (memFile B w.handles.length), none),
        ⟨if hasBit flag B.O_TRUNC && !e.isDir then
            putEntry (canon name) { e with content := [] } w.entries
          else w.entries,
          w.handles ++
            [⟨name, canon name, e.isDir, hasBit flag B.O_APPEND, accessOf B flag, 0, 0⟩]⟩)
  | none =>
    if hasBit flag B.O_CREATE then
      if B.readOnly || !hasParentDir w.entries (canon name) then ((none, some B.ErrCreate), w)
      else
        ((some (memFile B w.handles.length), none),
          ⟨putEntry (canon name) ⟨false, [], perm, 0, 0⟩ w.entries,
            w.handles ++
              [⟨name, canon name, false, hasBit flag B.O_APPEND, accessOf B flag, 0, 0⟩]⟩)
    else ((none, some B.ErrFileNotFound), w)

/-- Modelled from the spec: `Remove` of a backend, which no source file
defines.  "deletes exactly one entry; fails with not-found if absent; fails if
path is a non-empty directory". -/
def memRemove (B : Backend) (name : String) (w : World) : Option GoError × World :=
  match w.entries.lookup (canon name) with
  | none => (some B.ErrFileNotFound, w)
  | some e =>
    if e.isDir && w.entries.any (fun x => (canon name).isPrefixOf x.1 && x.1 != canon name) then
      (some B.ErrNotEmpty, w)
    else (none, ⟨eraseEntry (canon name) w.entries, w.handles⟩)

/-- Modelled from the spec: `RemoveAll` of a backend, which no source file
defines.  "recursively deletes path and everything beneath it; succeeds with no
error if path does not exist (idempotent no-op), unlike Remove". -/
def memRemoveAll (_B : Backend) (path : String) (w : World) : Option GoError × World :=
  match w.entries.lookup (canon path) with
  | none => (none, w)
  | some _ => (none, ⟨w.entries.filter (fun x => !(canon path).isPrefixOf x.1), w.handles⟩)

/-- Modelled from the spec: `Rename` of a backend, which no source file
defines.  "moves/renames an entry; if new already exists it is replaced for
files; behavior for replacing a directory with a non-empty directory is
backend-defined but must fail rather than silently merge". -/
def memRename (B : Backend) (oldname newname : String) (w : World) : Option GoError × World :=
  match w.entries.lookup (canon oldname) with
  | none => (some B.ErrFileNotFound, w)
  | some e =>
    match w.entries.lookup (canon newname) with
    | some d =>
      if !e.isDir && !d.isDir then
        (none, ⟨putEntry (canon newname) e (eraseEntry (canon oldname) w.entries), w.handles⟩)
      else (some B.ErrDestinationExists, w)
    | none =>
      (none,
        ⟨w.entries.map (fun x =>
            if (canon oldname).isPrefixOf x.1 then
              (canon newname ++ x.1.drop (canon oldname).length, x.2)
            else x),
          w.handles⟩)

/-- Modelled from the spec: `Stat` of a backend, which no source file defines.
"returns entry metadata without opening; fails with not-found if absent". -/
def memStat (B : Backend) (name : String) (w : World) :
    (Option FileInfo × Option GoError) × World :=
  match w.entries.lookup (canon name) with
  | none => ((none, some B.ErrFileNotFound), w)
  | some e => ((some (infoOf (canon name) e), none), w)

/-- Modelled from the spec: `Chmod` of a backend, which no source file defines.
"mutate permission bits / timestamps of an existing entry in place; fail with
not-found if absent". -/
def memChmod (B : Backend) (name : String) (mode : Nat) (w : World) : Option GoError × World :=
  match w.entries.lookup (canon name) with
  | none => (some B.ErrFileNotFound, w)
  | some e => (none, ⟨putEntry (canon name) { e with mode := mode } w.entries, w.handles⟩)

/-- Modelled from the spec: `Chtimes` of a backend, which no source file
defines; see `memChmod`. -/
def memChtimes (B : Backend) (name : String) (atime mtime : Int) (w : World) :
    Option GoError × World :=
  match w.entries.lookup (canon name) with
  | none => (some B.ErrFileNotFound, w)
  | some e =>
    (none, ⟨putEntry (canon name) { e with atime := atime, mtime := mtime } w.entries, w.handles⟩)

/-- Modelled from the spec: a backend as a value of the interface `Fs`, which
no source file defines.  `Name` "returns a fixed, backend-identifying label;
pure, no side effects". -/
def memFs (B : Backend) : Fs World where
  Create := memCreate B
  Mkdir := memMkdir B
  MkdirAll := memMkdirAll B
  Open := memOpen B
  OpenFile := memOpenFile B
  Remove := memRemove B
  RemoveAll := memRemoveAll B
  Rename := memRename B
  Stat := memStat B
  Name := fun w => (B.label, w)
  Chmod := memChmod B
  Chtimes := memChtimes B

/-! ### Calls, and sequences of calls -/

/-- A call of one of the thirteen operations on the handle number `i`, or of
one of the twelve operations of the filesystem. -/
inductive Call where
  | fileClose (i : Nat)
  | fileRead (i : Nat) (n : Nat)
  | fileReadAt (i : Nat) (n : Nat) (off : Int)
  | fileSeek (i : Nat) (offset : Int) (whence : Int)
  | fileWrite (i : Nat) (b : List UInt8)
  | fileWriteAt (i : Nat) (b : List UInt8) (off : Int)
  | fileName (i : Nat)
  | fileReaddir (i : Nat) (count : Int)
  | fileReaddirnames (i : Nat) (n : Int)
  | fileStat (i : Nat)
  | fileSync (i : Nat)
  | fileTruncate (i : Nat) (size : Int)
  | fileWriteString (i : Nat) (s : String)
  | create (name : String)
  | mkdir (name : String) (perm : Nat)
  | mkdirAll (path : String) (perm : Nat)
  | fsOpen (name : String)
  | openFile (name : String) (flag : Int) (perm : Nat)
  | remove (name : String)
  | removeAll (path : String)
  | rename (oldname newname : String)
  | stat (name : String)
  | fsName
  | chmod (name : String) (mode : Nat)
  | chtimes (name : String) (atime mtime : Int)
deriving DecidableEq, Repr

/-- State of the backend after a call. -/
def Call.run (B : Backend) : Call → World → World
  | .fileClose i, w => ((memFile B i).Close w).2
  | .fileRead i n, w => ((memFile B i).Read n w).2
  | .fileReadAt i n off, w => ((memFile B i).ReadAt n off w).2
  | .fileSeek i offset whence, w => ((memFile B i).Seek offset whence w).2
  | .fileWrite i b, w => ((memFile B i).Write b w).2
  | .fileWriteAt i b off, w => ((memFile B i).WriteAt b off w).2
  | .fileName i, w => ((memFile B i).Name w).2
  | .fileReaddir i count, w => ((memFile B i).Readdir count w).2
  | .fileReaddirnames i n, w => ((memFile B i).Readdirnames n w).2
  | .fileStat i, w => ((memFile B i).Stat w).2
  | .fileSync i, w => ((memFile B i).Sync w).2
  | .fileTruncate i size, w => ((memFile B i).Truncate size w).2
  | .fileWriteString i s, w => ((memFile B i).WriteString s w).2
  | .create name, w => ((memFs B).Create name w).2
  | .mkdir name perm, w => ((memFs B).Mkdir name perm w).2
  | .mkdirAll path perm, w => ((memFs B).MkdirAll path perm w).2
  | .fsOpen name, w => ((memFs B).Open name w).2
  | .openFile name flag perm, w => ((memFs B).OpenFile name flag perm w).2
  | .remove name, w => ((memFs B).Remove name w).2
  | .removeAll path, w => ((memFs B).RemoveAll path w).2
  | .rename oldname newname, w => ((memFs B).Rename oldname newname w).2
  | .stat name, w => ((memFs B).Stat name w).2
  | .fsName, w => ((memFs B).Name w).2
  | .chmod name mode, w => ((memFs B).Chmod name mode w).2
  | .chtimes name atime mtime, w => ((memFs B).Chtimes name atime mtime w).2

/-- State of the backend after a sequence of calls. -/
def runCalls (B : Backend) : List Call → World → World
  | [], w => w
  | c :: cs, w => runCalls B cs (c.run B w)

/-- Reads a handle to end-of-stream with a buffer of `k` bytes, as Go's
`io.ReadAll` does: the bytes of every `Read` are kept, the loop ends at the
first error, and the content is returned when that error is the end-of-stream
signal.  `fuel` bounds the number of calls of `Read`; `none` is returned when
it runs out or `Read` fails otherwise. -/
def readToEnd {σ : Type} (eof : GoError) (f : File σ) (k : Nat) :
    Nat → σ → Option (List UInt8) × σ
  | 0, w => (none, w)
  | fuel + 1, w =>
    match f.Read k w with
    | ((bs, none), w1) =>
      match readToEnd eof f k fuel w1 with
      | (some rest, w2) => (some (bs ++ rest), w2)
      | (none, w2) => (none, w2)
    | ((bs, some e), w1) => if e.identical eof then (some bs, w1) else (none, w1)

/-! ### One concrete backend -/

/-- Value of a package variable, the invalid-argument error for a name the
package does not declare. -/
def sentinel (lib : Stdlib) (h : Heap) (name : String) : GoError :=
  (lookupVar lib h name).getD lib.ErrInvalid

/-- Modelled from the spec: one backend, which no source file defines: a
writable backend over the package's sentinels, with four errors of its
own allocated after the package's, and the flag bits of `os` on Linux. -/
def backendInit (lib : Stdlib) (h : Heap) : Backend × Heap :=
  let h0 := (initBlock lib varBlock h).2
  let (eCreate, h1) := errorsNew "cannot create file" h0
  let (eNotDir, h2) := errorsNew "not a directory" h1
  let (eIsDir, h3) := errorsNew "is a directory" h2
  let (eNotEmpty, h4) := errorsNew "directory not empty" h3
  ({ ErrFileClosed := sentinel lib h "ErrFileClosed"
     ErrOutOfRange := sentinel lib h "ErrOutOfRange"
     ErrFileNotFound := sentinel lib h "ErrFileNotFound"
     ErrFileExists := sentinel lib h "ErrFileExists"
     ErrDestinationExists := sentinel lib h "ErrDestinationExists"
     ErrPermission := lib.ErrPermission
     ErrInvalid := lib.ErrInvalid
     EOF := lib.EOF
     ErrCreate := eCreate
     ErrNotDir := eNotDir
     ErrIsDir := eIsDir
     ErrNotEmpty := eNotEmpty
     O_WRONLY := 1
     O_RDWR := 2
     O_APPEND := 1024
     O_CREATE := 64
     O_EXCL := 128
     O_TRUNC := 512
     readOnly := false
     doubleCloseErrors := true
     label := "MemMapFS"
     createMode := 438 }, h4)

/-- Modelled from the spec: the backend maps the named conditions onto the
package's sentinels (section 3: "every backend must map its native errors
onto" them): each of its five sentinel errors is the value of the package
variable of that name, as `afero.go` lines 96-103 initialise it. -/
def Backend.UsesSentinels (B : Backend) (lib : Stdlib) (h : Heap) : Prop :=
  lookupVar lib h "ErrFileClosed" = some B.ErrFileClosed ∧
  lookupVar lib h "ErrOutOfRange" = some B.ErrOutOfRange ∧
  lookupVar lib h "ErrFileNotFound" = some B.ErrFileNotFound ∧
  lookupVar lib h "ErrFileExists" = some B.ErrFileExists ∧
  lookupVar lib h "ErrDestinationExists" = some B.ErrDestinationExists

instance (B : Backend) (lib : Stdlib) (h : Heap) : Decidable (B.UsesSentinels lib h) := by
  unfold Backend.UsesSentinels; infer_instance

/-- The concrete backend at program start. -/
def memBackend : Backend :=
  (backendInit startup.1 startup.2).1

/-- A namespace that holds the root directory and nothing else, and no handle. -/
def rootWorld : World :=
  ⟨[([], ⟨true, [], 493, 0, 0⟩)], []⟩

/-- The backend has given out the handle number `i`, and that handle is in the
state closed. -/
def closedAt (i : Nat) (w : World) : Prop :=
  ∃ h, w.handles[i]? = some h ∧ h.state = .closed

/-- The state of the concrete backend after `Create` of `/f` in the namespace
that holds only the root: the handle number 0 is open. -/
def openWorld : World :=
  ((memFs memBackend).Create "/f" rootWorld).2

/-- The state after `Close` of that handle. -/
def closedWorld : World :=
  ((memFile memBackend 0).Close openWorld).2

/-! # Theorems -/

/-! ## The error variables -/

/-- The variables of the block, evaluated on any library and heap. -/
theorem packageVars_eq (lib : Stdlib) (h : Heap) :
    packageVars lib h =
      [ ("ErrFileClosed", ⟨h.next, "File is closed"⟩),
        ("ErrOutOfRange", ⟨h.next + 1, "Out of range"⟩),
        ("ErrTooLarge", ⟨h.next + 1 + 1, "Too large"⟩),
        ("ErrFileNotFound", lib.ErrNotExist),
        ("ErrFileExists", lib.ErrExist),
        ("ErrDestinationExists", lib.ErrExist) ] := rfl

/-- A name the package declares is one of the six, with the value the block
gives it. -/
theorem lookupVar_some (lib : Stdlib) (h : Heap) (name : String) (e : GoError)
    (hl : lookupVar lib h name = some e) :
    (name = "ErrFileClosed" ∧ e = ⟨h.next, "File is closed"⟩) ∨
    (name = "ErrOutOfRange" ∧ e = ⟨h.next + 1, "Out of range"⟩) ∨
    (name = "ErrTooLarge" ∧ e = ⟨h.next + 1 + 1, "Too large"⟩) ∨
    (name = "ErrFileNotFound" ∧ e = lib.ErrNotExist) ∨
    (name = "ErrFileExists" ∧ e = lib.ErrExist) ∨
    (name = "ErrDestinationExists" ∧ e = lib.ErrExist) := by
  unfold lookupVar at hl
  rw [packageVars_eq] at hl
  simp only [List.lookup] at hl
  repeat' split at hl
  all_goals simp_all

/-- C1, as stated, fails: at program start the two distinct names
`ErrFileExists` and `ErrDestinationExists` hold values that compare equal, so
it is not the case that every two distinct names among the six hold values that
compare unequal. -/
theorem sentinels_not_pairwise_distinct :
    ¬ (∀ a b ea eb, a ≠ b →
        lookupVar startup.1 startup.2 a = some ea →
        lookupVar startup.1 startup.2 b = some eb →
        ea.identical eb = false) := by
  intro hall
  have hne : ("ErrFileExists" : String) ≠ "ErrDestinationExists" := by decide
  have := hall "ErrFileExists" "ErrDestinationExists" startup.1.ErrExist startup.1.ErrExist
    hne rfl rfl
  simp [GoError.identical] at this

/-- C1, amended: whenever the two `os` errors exist before the package
initialises and differ from each other, two distinct names among the six
sentinels hold values that compare equal exactly when the two names are
`ErrFileExists` and `ErrDestinationExists`; every other pair of distinct names
compares unequal. -/
theorem sentinels_distinct_except_exists_pair (lib : Stdlib) (h : Heap)
    (hal : lib.Allocated h) (hos : lib.ErrNotExist.ptr ≠ lib.ErrExist.ptr)
    (a b : String) (ea eb : GoError) (hab : a ≠ b)
    (ha : lookupVar lib h a = some ea) (hb : lookupVar lib h b = some eb) :
    ea.identical eb = true ↔
      (a = "ErrFileExists" ∧ b = "ErrDestinationExists") ∨
      (a = "ErrDestinationExists" ∧ b = "ErrFileExists") := by
  obtain ⟨h1, h2⟩ := hal
  have hos2 : lib.ErrExist.ptr ≠ lib.ErrNotExist.ptr := fun hh => hos hh.symm
  rcases lookupVar_some lib h a ea ha with ⟨rfl, rfl⟩ | ⟨rfl, rfl⟩ | ⟨rfl, rfl⟩ | ⟨rfl, rfl⟩ |
      ⟨rfl, rfl⟩ | ⟨rfl, rfl⟩ <;>
    rcases lookupVar_some lib h b eb hb with ⟨rfl, rfl⟩ | ⟨rfl, rfl⟩ | ⟨rfl, rfl⟩ |
      ⟨rfl, rfl⟩ | ⟨rfl, rfl⟩ | ⟨rfl, rfl⟩ <;>
    simp [GoError.identical] at hab ⊢ <;> omega

/-- Witness of the amended C1 at program start, for the pair
`ErrFileClosed`, `ErrFileNotFound`. -/
theorem sentinels_distinct_except_exists_pair_witness :
    startup.1.Allocated startup.2 ∧ startup.1.ErrNotExist.ptr ≠ startup.1.ErrExist.ptr ∧
    ("ErrFileClosed" : String) ≠ "ErrFileNotFound" ∧
    lookupVar startup.1 startup.2 "ErrFileClosed" = some ⟨6, "File is closed"⟩ ∧
    lookupVar startup.1 startup.2 "ErrFileNotFound" = some ⟨4, "file does not exist"⟩ ∧
    ((GoError.mk 6 "File is closed").identical ⟨4, "file does not exist"⟩ = true ↔
      (("ErrFileClosed" : String) = "ErrFileExists" ∧
        ("ErrFileNotFound" : String) = "ErrDestinationExists") ∨
      (("ErrFileClosed" : String) = "ErrDestinationExists" ∧
        ("ErrFileNotFound" : String) = "ErrFileExists")) :=
  ⟨by decide, by decide, by decide, rfl, rfl,
    sentinels_distinct_except_exists_pair startup.1 startup.2 (by decide) (by decide)
      "ErrFileClosed" "ErrFileNotFound" _ _ (by decide) rfl rfl⟩

/-- C2: the package declares exactly six error variables; each of the six
conditions has its variable, different conditions have different variables,
and every variable the package declares is the variable of one of the six
conditions. -/
theorem vocabulary_is_the_six_sentinels (lib : Stdlib) (h : Heap) :
    varBlock.map VarDecl.name =
      ["ErrFileClosed", "ErrOutOfRange", "ErrTooLarge", "ErrFileNotFound", "ErrFileExists",
        "ErrDestinationExists"] ∧
    (varBlock.map VarDecl.name).Nodup ∧
    (∀ c : Condition, ∃ e, lookupVar lib h c.sentinel = some e) ∧
    (∀ c d : Condition, c.sentinel = d.sentinel → c = d) ∧
    (∀ name e, lookupVar lib h name = some e → ∃ c : Condition, c.sentinel = name) := by
  refine ⟨rfl, by decide, ?_, ?_, ?_⟩
  · intro c
    cases c <;> exact ⟨_, rfl⟩
  · intro c d
    cases c <;> cases d <;> simp [Condition.sentinel]
  · intro name e hl
    rcases lookupVar_some lib h name e hl with ⟨rfl, -⟩ | ⟨rfl, -⟩ | ⟨rfl, -⟩ | ⟨rfl, -⟩ |
      ⟨rfl, -⟩ | ⟨rfl, -⟩
    · exact ⟨.closed, rfl⟩
    · exact ⟨.outOfRange, rfl⟩
    · exact ⟨.tooLarge, rfl⟩
    · exact ⟨.notFound, rfl⟩
    · exact ⟨.alreadyExists, rfl⟩
    · exact ⟨.destinationExists, rfl⟩

/-- C9: `ErrFileNotFound` is the value `os.ErrNotExist` and `ErrFileExists` is
the value `os.ErrExist`, so `errors.Is` answers the same for the sentinel and
for the `os` error on every error chain; `ErrFileClosed`, `ErrOutOfRange` and
`ErrTooLarge` are new values, equal to neither `os` error and pairwise unequal. -/
theorem sentinels_and_os_errors (lib : Stdlib) (h : Heap) (hal : lib.Allocated h) :
    ∃ notFound fileExists closed outOfRange tooLarge,
      lookupVar lib h "ErrFileNotFound" = some notFound ∧
      lookupVar lib h "ErrFileExists" = some fileExists ∧
      lookupVar lib h "ErrFileClosed" = some closed ∧
      lookupVar lib h "ErrOutOfRange" = some outOfRange ∧
      lookupVar lib h "ErrTooLarge" = some tooLarge ∧
      notFound = lib.ErrNotExist ∧ fileExists = lib.ErrExist ∧
      notFound.identical lib.ErrNotExist = true ∧ fileExists.identical lib.ErrExist = true ∧
      (∀ chain, errorsIs chain notFound = errorsIs chain lib.ErrNotExist) ∧
      (∀ chain, errorsIs chain fileExists = errorsIs chain lib.ErrExist) ∧
      closed.identical lib.ErrNotExist = false ∧ closed.identical lib.ErrExist = false ∧
      outOfRange.identical lib.ErrNotExist = false ∧ outOfRange.identical lib.ErrExist = false ∧
      tooLarge.identical lib.ErrNotExist = false ∧ tooLarge.identical lib.ErrExist = false ∧
      closed.identical outOfRange = false ∧ closed.identical tooLarge = false ∧
      outOfRange.identical tooLarge = false := by
  obtain ⟨h1, h2⟩ := hal
  refine ⟨lib.ErrNotExist, lib.ErrExist, ⟨h.next, "File is closed"⟩,
    ⟨h.next + 1, "Out of range"⟩, ⟨h.next + 1 + 1, "Too large"⟩, rfl, rfl, rfl, rfl, rfl, rfl, rfl,
    ?_, ?_, fun _ => rfl, fun _ => rfl, ?_, ?_, ?_, ?_, ?_, ?_, ?_, ?_, ?_⟩ <;>
    simp [GoError.identical] <;> omega

/-- Witness of C9 at program start. -/
theorem sentinels_and_os_errors_witness :
    startup.1.Allocated startup.2 ∧
    ∃ notFound fileExists closed outOfRange tooLarge,
      lookupVar startup.1 startup.2 "ErrFileNotFound" = some notFound ∧
      lookupVar startup.1 startup.2 "ErrFileExists" = some fileExists ∧
      lookupVar startup.1 startup.2 "ErrFileClosed" = some closed ∧
      lookupVar startup.1 startup.2 "ErrOutOfRange" = some outOfRange ∧
      lookupVar startup.1 startup.2 "ErrTooLarge" = some tooLarge ∧
      notFound = startup.1.ErrNotExist ∧ fileExists = startup.1.ErrExist ∧
      notFound.identical startup.1.ErrNotExist = true ∧
      fileExists.identical startup.1.ErrExist = true ∧
      (∀ chain, errorsIs chain notFound = errorsIs chain startup.1.ErrNotExist) ∧
      (∀ chain, errorsIs chain fileExists = errorsIs chain startup.1.ErrExist) ∧
      closed.identical startup.1.ErrNotExist = false ∧
      closed.identical startup.1.ErrExist = false ∧
      outOfRange.identical startup.1.ErrNotExist = false ∧
      outOfRange.identical startup.1.ErrExist = false ∧
      tooLarge.identical startup.1.ErrNotExist = false ∧
      tooLarge.identical startup.1.ErrExist = false ∧
      closed.identical outOfRange = false ∧ closed.identical tooLarge = false ∧
      outOfRange.identical tooLarge = false :=
  ⟨by decide, sentinels_and_os_errors startup.1 startup.2 (by decide)⟩

/-! ## The interface declarations -/

/-- C7: `Fs` declares exactly twelve methods, with the names `Create`, `Mkdir`,
`MkdirAll`, `Open`, `OpenFile`, `Remove`, `RemoveAll`, `Rename`, `Stat`, `Name`,
`Chmod`, `Chtimes`, each once; `Create`, `Open` and `OpenFile` return a `File`
and an error, `Stat` an `os.FileInfo` and an error, `Mkdir`, `MkdirAll`,
`Remove`, `RemoveAll`, `Rename`, `Chmod` and `Chtimes` an error alone, and
`Name` a string alone. -/
theorem fs_declares_twelve_operations :
    FsDecl.methodNames =
      ["Create", "Mkdir", "MkdirAll", "Open", "OpenFile", "Remove", "RemoveAll", "Rename",
        "Stat", "Name", "Chmod", "Chtimes"] ∧
    FsDecl.methodNames.length = 12 ∧
    FsDecl.methodNames.Nodup ∧
    (∀ n ∈ ["Create", "Open", "OpenFile"], FsDecl.resultsOf n = some [tFile, GoType.error]) ∧
    FsDecl.resultsOf "Stat" = some [tFileInfo, GoType.error] ∧
    (∀ n ∈ ["Mkdir", "MkdirAll", "Remove", "RemoveAll", "Rename", "Chmod", "Chtimes"],
      FsDecl.resultsOf n = some [GoType.error]) ∧
    FsDecl.resultsOf "Name" = some [GoType.string] := by
  refine ⟨rfl, rfl, by decide, by decide, rfl, by decide, rfl⟩

/-- C8: `File` declares exactly thirteen methods, each once: `Close`, `Read`,
`ReadAt`, `Seek`, `Write`, `WriteAt` through the six embedded `io` interfaces
and `Name`, `Readdir`, `Readdirnames`, `Stat`, `Sync`, `Truncate`,
`WriteString` itself; the first result of `Create`, `Open` and `OpenFile` has
this type, so it has the methods of sequential I/O, positioned I/O, directory
enumeration and metadata query. -/
theorem file_declares_thirteen_operations :
    FileDecl.methodNames =
      ["Close", "Read", "ReadAt", "Seek", "Write", "WriteAt", "Name", "Readdir",
        "Readdirnames", "Stat", "Sync", "Truncate", "WriteString"] ∧
    FileDecl.methodNames.length = 13 ∧
    FileDecl.methodNames.Nodup ∧
    FileDecl.embeddedNames = ["Close", "Read", "ReadAt", "Seek", "Write", "WriteAt"] ∧
    FileDecl.embeds.map Prod.fst =
      ["io.Closer", "io.Reader", "io.ReaderAt", "io.Seeker", "io.Writer", "io.WriterAt"] ∧
    FileDecl.methods.map MethodSig.name =
      ["Name", "Readdir", "Readdirnames", "Stat", "Sync", "Truncate", "WriteString"] ∧
    (∀ n ∈ ["Create", "Open", "OpenFile"],
      (FsDecl.resultsOf n).bind List.head? = some tFile) ∧
    (∀ n ∈ ["Read", "Write", "Seek", "ReadAt", "WriteAt", "Readdir", "Readdirnames", "Stat"],
      n ∈ FileDecl.methodNames) := by
  refine ⟨rfl, rfl, by decide, rfl, rfl, rfl, by decide, by decide⟩

/-! ## The wrapper -/

/-- C10: the method set of `Afero` is the method set of `Fs`, signature by
signature, so `Afero` satisfies `Fs`; and for every `fs`, each of the twelve
operations called on `Afero{Fs: fs}` with any arguments, in any state, returns
the results and the next state of the same operation called on `fs`. -/
theorem wrapper_is_transparent :
    AferoDecl.methodSet FsDecl = FsDecl.methodSet ∧
    ∀ (σ : Type) (fs : Fs σ),
      (Afero.mk fs).asFs = fs ∧
      (∀ name w, (Afero.mk fs).asFs.Create name w = fs.Create name w) ∧
      (∀ name perm w, (Afero.mk fs).asFs.Mkdir name perm w = fs.Mkdir name perm w) ∧
      (∀ path perm w, (Afero.mk fs).asFs.MkdirAll path perm w = fs.MkdirAll path perm w) ∧
      (∀ name w, (Afero.mk fs).asFs.Open name w = fs.Open name w) ∧
      (∀ name flag perm w,
        (Afero.mk fs).asFs.OpenFile name flag perm w = fs.OpenFile name flag perm w) ∧
      (∀ name w, (Afero.mk fs).asFs.Remove name w = fs.Remove name w) ∧
      (∀ path w, (Afero.mk fs).asFs.RemoveAll path w = fs.RemoveAll path w) ∧
      (∀ o n w, (Afero.mk fs).asFs.Rename o n w = fs.Rename o n w) ∧
      (∀ name w, (Afero.mk fs).asFs.Stat name w = fs.Stat name w) ∧
      (∀ w, (Afero.mk fs).asFs.Name w = fs.Name w) ∧
      (∀ name mode w, (Afero.mk fs).asFs.Chmod name mode w = fs.Chmod name mode w) ∧
      (∀ name atime mtime w,
        (Afero.mk fs).asFs.Chtimes name atime mtime w = fs.Chtimes name atime mtime w) := by
  refine ⟨by decide, fun σ fs => ⟨rfl, ?_⟩⟩
  refine ⟨?_, ?_, ?_, ?_, ?_, ?_, ?_, ?_, ?_, ?_, ?_, ?_⟩ <;> intros <;> rfl

/-! ## The backend modelled from the specification -/

/-- An entry just stored is the entry found at its path. -/
theorem lookup_putEntry_self (p : Path) (e : Entry) (es : Entries) :
    (putEntry p e es).lookup p = some e := by
  induction es with
  | nil => simp [putEntry, List.lookup]
  | cons x rest ih =>
    obtain ⟨q, y⟩ := x
    by_cases h : (p == q) = true
    · simp [putEntry, h, List.lookup]
    · simp only [Bool.not_eq_true] at h
      simp [putEntry, h, List.lookup, ih]

/-- C3: on the backend modelled from the specification that returns the
package's sentinels, for every state and every path that names no entry,
`RemoveAll` returns nil and leaves the state (namespace and handles) unchanged,
and `Remove` returns the value of the package variable `ErrFileNotFound`, which
is the non-nil error `os.ErrNotExist`. -/
theorem removeAll_absent_nil_remove_absent_not_found (lib : Stdlib) (h : Heap) (B : Backend)
    (hB : B.UsesSentinels lib h) (w : World) (p : String)
    (habsent : w.entries.lookup (canon p) = none) :
    (memFs B).RemoveAll p w = (none, w) ∧
    (memFs B).Remove p w = (lookupVar lib h "ErrFileNotFound", w) ∧
    lookupVar lib h "ErrFileNotFound" = some lib.ErrNotExist := by
  refine ⟨?_, ?_, rfl⟩
  · simp [memFs, memRemoveAll, habsent]
  · rw [hB.2.2.1]
    simp [memFs, memRemove, habsent]

/-- Witness of C3: the path `/zz` in the namespace that holds only the root, on
the concrete backend at program start. -/
theorem removeAll_absent_nil_remove_absent_not_found_witness :
    memBackend.UsesSentinels startup.1 startup.2 ∧
    rootWorld.entries.lookup (canon "/zz") = none ∧
    (memFs memBackend).RemoveAll "/zz" rootWorld = (none, rootWorld) ∧
    (memFs memBackend).Remove "/zz" rootWorld =
      (lookupVar startup.1 startup.2 "ErrFileNotFound", rootWorld) ∧
    lookupVar startup.1 startup.2 "ErrFileNotFound" = some startup.1.ErrNotExist :=
  ⟨by decide, by decide,
    removeAll_absent_nil_remove_absent_not_found startup.1 startup.2 memBackend (by decide)
      rootWorld "/zz" (by decide)⟩

/-- C6: on the backend modelled from the specification that returns the
package's sentinels, for every state, every path that names an entry and every
flag with the create bit and the exclusive-create bit set, `OpenFile` returns
no handle and the value of the package variable `ErrFileExists`, which is the
non-nil error `os.ErrExist`, and leaves the state unchanged. -/
theorem openFile_create_excl_existing (lib : Stdlib) (h : Heap) (B : Backend)
    (hB : B.UsesSentinels lib h) (w : World) (name : String) (flag : Int)
    (perm : Nat) (e : Entry)
    (hexists : w.entries.lookup (canon name) = some e)
    (hcreate : hasBit flag B.O_CREATE = true) (hexcl : hasBit flag B.O_EXCL = true) :
    (memFs B).OpenFile name flag perm w = ((none, lookupVar lib h "ErrFileExists"), w) ∧
    lookupVar lib h "ErrFileExists" = some lib.ErrExist := by
  refine ⟨?_, rfl⟩
  rw [hB.2.2.2.1]
  simp [memFs, memOpenFile, hexists, hcreate, hexcl]

/-- Witness of C6: the root directory, opened with `O_CREATE|O_EXCL` on the
concrete backend at program start. -/
theorem openFile_create_excl_existing_witness :
    memBackend.UsesSentinels startup.1 startup.2 ∧
    rootWorld.entries.lookup (canon "/") = some ⟨true, [], 493, 0, 0⟩ ∧
    hasBit 192 memBackend.O_CREATE = true ∧ hasBit 192 memBackend.O_EXCL = true ∧
    (memFs memBackend).OpenFile "/" 192 420 rootWorld =
      ((none, lookupVar startup.1 startup.2 "ErrFileExists"), rootWorld) ∧
    lookupVar startup.1 startup.2 "ErrFileExists" = some startup.1.ErrExist :=
  ⟨by decide, by decide, by decide, by decide,
    openFile_create_excl_existing startup.1 startup.2 memBackend (by decide) rootWorld "/" 192
      420 ⟨true, [], 493, 0, 0⟩ (by decide) (by decide) (by decide)⟩

/-! ### The closed state -/

/-- An operation that leaves a closed handle closed, run on any handle of the
backend, leaves every closed handle closed. -/
theorem onHandle_closedAt {α : Type} (B : Backend) (i j : Nat) (d : α)
    (op : Handle → Entries → (α × Option GoError) × Handle × Entries) (w : World)
    (hop : ∀ h es, h.state = .closed → (op h es).2.1.state = .closed)
    (hc : closedAt i w) : closedAt i (onHandle B j d op w).2 := by
  unfold onHandle
  cases hj : w.handles[j]? with
  | none => simpa using hc
  | some h =>
    obtain ⟨h0, hi, hs⟩ := hc
    by_cases hji : j = i
    · subst hji
      have hh : h = h0 := by rw [hj] at hi; exact Option.some.inj hi
      subst hh
      have hlt : j < w.handles.length := (List.getElem?_eq_some.mp hj).1
      exact ⟨(op h w.entries).2.1, by simp [hlt], hop h w.entries hs⟩
    · exact ⟨h0, by simp [hji, hi], hs⟩

/-- The same for an operation whose only result is an error. -/
theorem onHandleErr_closedAt (B : Backend) (i j : Nat)
    (op : Handle → Entries → Option GoError × Handle × Entries) (w : World)
    (hop : ∀ h es, h.state = .closed → (op h es).2.1.state = .closed)
    (hc : closedAt i w) : closedAt i (onHandleErr B j op w).2 := by
  unfold onHandleErr
  cases hj : w.handles[j]? with
  | none => simpa using hc
  | some h =>
    obtain ⟨h0, hi, hs⟩ := hc
    by_cases hji : j = i
    · subst hji
      have hh : h = h0 := by rw [hj] at hi; exact Option.some.inj hi
      subst hh
      have hlt : j < w.handles.length := (List.getElem?_eq_some.mp hj).1
      exact ⟨(op h w.entries).2.1, by simp [hlt], hop h w.entries hs⟩
    · exact ⟨h0, by simp [hji, hi], hs⟩

/-- A new handle at the end of the table leaves every closed handle closed. -/
theorem closedAt_append (i : Nat) (es es1 : Entries) (hs : List Handle) (x : Handle)
    (hc : closedAt i ⟨es, hs⟩) : closedAt i ⟨es1, hs ++ [x]⟩ := by
  obtain ⟨h0, hi, hst⟩ := hc
  have hlt : i < hs.length := (List.getElem?_eq_some.mp hi).1
  exact ⟨h0, by simpa [List.getElem?_append_left hlt] using hi, hst⟩

/-- Every call leaves every closed handle closed. -/
theorem run_closedAt (B : Backend) (i : Nat) (c : Call) (w : World) (hc : closedAt i w) :
    closedAt i (c.run B w) := by
  cases c with
  | fileClose j =>
    exact onHandleErr_closedAt B i j _ w (fun h es hs => by simp [hClose, hs]) hc
  | fileRead j n =>
    exact onHandle_closedAt B i j _ _ w (fun h es hs => by simp [hRead, hs]) hc
  | fileReadAt j n off =>
    exact onHandle_closedAt B i j _ _ w (fun h es hs => by simp [hReadAt, hs]) hc
  | fileSeek j offset whence =>
    exact onHandle_closedAt B i j _ _ w (fun h es hs => by simp [hSeek, hs]) hc
  | fileWrite j b =>
    exact onHandle_closedAt B i j _ _ w (fun h es hs => by simp [hWrite, hs]) hc
  | fileWriteAt j b off =>
    exact onHandle_closedAt B i j _ _ w (fun h es hs => by simp [hWriteAt, hs]) hc
  | fileName j => exact hc
  | fileReaddir j count =>
    exact onHandle_closedAt B i j _ _ w (fun h es hs => by simp [hReaddir, hs]) hc
  | fileReaddirnames j n =>
    exact onHandle_closedAt B i j _ _ w
      (fun h es hs => by simp [hReaddirnames, hReaddir, hs]) hc
  | fileStat j =>
    exact onHandle_closedAt B i j _ _ w (fun h es hs => by simp [hStat, hs]) hc
  | fileSync j =>
    exact onHandleErr_closedAt B i j _ w (fun h es hs => by simp [hSync, hs]) hc
  | fileTruncate j size =>
    exact onHandleErr_closedAt B i j _ w (fun h es hs => by simp [hTruncate, hs]) hc
  | fileWriteString j s =>
    exact onHandle_closedAt B i j _ _ w
      (fun h es hs => by simp [hWriteString, hWrite, hs]) hc
  | create name =>
    obtain ⟨es, hs⟩ := w
    simp only [Call.run, memFs, memCreate]
    split
    · exact hc
    · exact closedAt_append i es _ hs _ hc
  | mkdir name perm =>
    obtain ⟨es, hs⟩ := w
    simp only [Call.run, memFs, memMkdir]
    split
    · exact hc
    · split
      · exact hc
      · exact hc
  | mkdirAll path perm =>
    obtain ⟨es, hs⟩ := w
    simp only [Call.run, memFs, memMkdirAll]
    split
    · exact hc
    · exact hc
  | fsOpen name =>
    obtain ⟨es, hs⟩ := w
    simp only [Call.run, memFs, memOpen]
    split
    · exact hc
    · exact closedAt_append i es _ hs _ hc
  | openFile name flag perm =>
    obtain ⟨es, hs⟩ := w
    simp only [Call.run, memFs, memOpenFile]
    split
    · split
      · exact hc
      · exact closedAt_append i es _ hs _ hc
    · split
      · split
        · exact hc
        · exact closedAt_append i es _ hs _ hc
      · exact hc
  | remove name =>
    obtain ⟨es, hs⟩ := w
    simp only [Call.run, memFs, memRemove]
    split
    · exact hc
    · split
      · exact hc
      · exact hc
  | removeAll path =>
    obtain ⟨es, hs⟩ := w
    simp only [Call.run, memFs, memRemoveAll]
    split
    · exact hc
    · exact hc
  | rename oldname newname =>
    obtain ⟨es, hs⟩ := w
    simp only [Call.run, memFs, memRename]
    split
    · exact hc
    · split
      · split
        · exact hc
        · exact hc
      · exact hc
  | stat name =>
    obtain ⟨es, hs⟩ := w
    simp only [Call.run, memFs, memStat]
    split
    · exact hc
    · exact hc
  | fsName => exact hc
  | chmod name mode =>
    obtain ⟨es, hs⟩ := w
    simp only [Call.run, memFs, memChmod]
    split
    · exact hc
    · exact hc
  | chtimes name atime mtime =>
    obtain ⟨es, hs⟩ := w
    simp only [Call.run, memFs, memChtimes]
    split
    · exact hc
    · exact hc

/-- Every sequence of calls leaves every closed handle closed. -/
theorem runCalls_closedAt (B : Backend) (i : Nat) (calls : List Call) (w : World)
    (hc : closedAt i w) : closedAt i (runCalls B calls w) := by
  induction calls generalizing w with
  | nil => exact hc
  | cons c cs ih => exact ih (c.run B w) (run_closedAt B i c w hc)

/-- After a `Close` that returned nil the handle is closed. -/
theorem close_ok_closedAt (B : Backend) (i : Nat) (w w1 : World)
    (hclose : (memFile B i).Close w = (none, w1)) : closedAt i w1 := by
  simp only [memFile, onHandleErr] at hclose
  cases hj : w.handles[i]? with
  | none => simp [hj] at hclose
  | some h =>
    have hlt : i < w.handles.length := (List.getElem?_eq_some.mp hj).1
    simp only [hj] at hclose
    have hw : w1 = ⟨(hClose B h w.entries).2.2, w.handles.set i (hClose B h w.entries).2.1⟩ :=
      (congrArg Prod.snd hclose).symm
    subst hw
    refine ⟨(hClose B h w.entries).2.1, by simp [hlt], ?_⟩
    unfold hClose
    split <;> simp_all


/-- C4: on the backend modelled from the specification that returns the
package's sentinels, once `Close` on a handle has returned nil, then after
every sequence of further calls (on this handle, on other handles, on the
filesystem) `Read`, `Write` and `Seek` on the handle fail with the value of the
package variable `ErrFileClosed`, and so does every other operation of the
handle except `Close` and `Name`; that value is the non-nil error made by
`errors.New("File is closed")`. -/
theorem closed_is_absorbing (lib : Stdlib) (h : Heap) (B : Backend)
    (hB : B.UsesSentinels lib h) (i : Nat) (w w1 : World) (calls : List Call)
    (hclose : (memFile B i).Close w = (none, w1)) :
    (∀ n, ((memFile B i).Read n
        (runCalls B calls w1)).1 =
          ([], lookupVar lib h "ErrFileClosed")) ∧
    (∀ b, ((memFile B i).Write b
        (runCalls B calls w1)).1 =
          (0, lookupVar lib h "ErrFileClosed")) ∧
    (∀ offset whence, ((memFile B i).Seek offset whence
        (runCalls B calls w1)).1 =
          (0, lookupVar lib h "ErrFileClosed")) ∧
    (∀ n off, ((memFile B i).ReadAt n off
        (runCalls B calls w1)).1.2 =
          lookupVar lib h "ErrFileClosed") ∧
    (∀ b off, ((memFile B i).WriteAt b off
        (runCalls B calls w1)).1.2 =
          lookupVar lib h "ErrFileClosed") ∧
    (∀ count, ((memFile B i).Readdir count
        (runCalls B calls w1)).1.2 =
          lookupVar lib h "ErrFileClosed") ∧
    (∀ n, ((memFile B i).Readdirnames n
        (runCalls B calls w1)).1.2 =
          lookupVar lib h "ErrFileClosed") ∧
    ((memFile B i).Stat
        (runCalls B calls w1)).1.2 =
          lookupVar lib h "ErrFileClosed" ∧
    ((memFile B i).Sync
        (runCalls B calls w1)).1 =
          lookupVar lib h "ErrFileClosed" ∧
    (∀ size, ((memFile B i).Truncate size
        (runCalls B calls w1)).1 =
          lookupVar lib h "ErrFileClosed") ∧
    (∀ s, ((memFile B i).WriteString s
        (runCalls B calls w1)).1.2 =
          lookupVar lib h "ErrFileClosed") ∧
    lookupVar lib h "ErrFileClosed" = some ⟨h.next, "File is closed"⟩ := by
  obtain ⟨hd, hi, hs⟩ := runCalls_closedAt B i calls w1 (close_ok_closedAt B i w w1 hclose)
  rw [hB.1]
  refine ⟨?_, ?_, ?_, ?_, ?_, ?_, ?_, ?_, ?_, ?_, ?_, hB.1.symm.trans rfl⟩ <;> intros <;>
    simp [memFile, onHandle, onHandleErr, hi, hs, hRead, hWrite, hSeek, hReadAt, hWriteAt,
      hReaddir, hReaddirnames, hStat, hSync, hTruncate, hWriteString]

/-! ### Writing, then reading -/

/-- Result of `Read` on an open, readable handle of a regular file. -/
theorem read_open (B : Backend) (j n : Nat) (w : World) (h : Handle) (e : Entry)
    (hj : w.handles[j]? = some h) (hst : h.state = .openReadable) (hd : h.isDir = false)
    (hl : w.entries.lookup h.path = some e) :
    (memFile B j).Read n w =
      if e.content.length ≤ h.pos then (([], some B.EOF), ⟨w.entries, w.handles.set j h⟩)
      else (((e.content.drop h.pos).take n, none),
        ⟨w.entries,
          w.handles.set j { h with pos := h.pos + ((e.content.drop h.pos).take n).length }⟩) := by
  by_cases hend : e.content.length ≤ h.pos <;>
    simp [memFile, onHandle, hj, hRead, hst, hd, hl, Handle.canRead, hend]

/-- Result of `Write` on an open, writable handle of a regular file. -/
theorem write_open (B : Backend) (j : Nat) (b : List UInt8) (w : World) (h : Handle) (e : Entry)
    (hj : w.handles[j]? = some h) (hst : h.state = .openWritable) (hd : h.isDir = false)
    (hl : w.entries.lookup h.path = some e) :
    (memFile B j).Write b w =
      (((b.length : Int), none),
        ⟨putEntry h.path
            { e with content :=
                writeBytes e.content (if h.append then e.content.length else h.pos) b }
            w.entries,
          w.handles.set j
            { h with pos := (if h.append then e.content.length else h.pos) + b.length }⟩) := by
  simp [memFile, onHandle, hj, hWrite, hst, hd, hl, Handle.canWrite]

/-- Result of `Close` on a handle that is not closed. -/
theorem close_open (B : Backend) (j : Nat) (w : World) (h : Handle)
    (hj : w.handles[j]? = some h) (hst : h.state ≠ .closed) :
    (memFile B j).Close w =
      (none, ⟨w.entries, w.handles.set j { h with state := .closed }⟩) := by
  simp [memFile, onHandleErr, hj, hClose, hst]

/-- Result of `Open` of a path that names an entry. -/
theorem open_ok (B : Backend) (w : World) (name : String) (e : Entry)
    (hl : w.entries.lookup (canon name) = some e) :
    (memFs B).Open name w =
      ((some (memFile B w.handles.length), none),
        ⟨w.entries, w.handles ++ [⟨name, canon name, e.isDir, false, .openReadable, 0, 0⟩]⟩) := by
  simp [memFs, memOpen, hl]

/-- Reading an open, readable handle of a regular file to end-of-stream returns
the content from the cursor on, whatever the size of the buffer, when the fuel
exceeds the number of bytes left. -/
theorem readToEnd_memFile (B : Backend) (j k : Nat) (hk : 0 < k) (e : Entry) :
    ∀ (fuel : Nat) (w : World) (h : Handle),
      w.handles[j]? = some h → h.state = .openReadable → h.isDir = false →
      w.entries.lookup h.path = some e → h.pos ≤ e.content.length →
      e.content.length - h.pos < fuel →
      (readToEnd B.EOF (memFile B j) k fuel w).1 = some (e.content.drop h.pos) := by
  intro fuel
  induction fuel with
  | zero => intro w h _ _ _ _ _ hf; omega
  | succ fuel ih =>
    intro w h hj hst hd hl hpos hf
    have hlt : j < w.handles.length := (List.getElem?_eq_some.mp hj).1
    rw [readToEnd, read_open B j k w h e hj hst hd hl]
    by_cases hend : e.content.length ≤ h.pos
    · simp [hend, GoError.identical, List.drop_eq_nil_of_le hend]
    · simp only [hend, if_false]
      have hlen : ((e.content.drop h.pos).take k).length = min k (e.content.length - h.pos) := by
        simp
      have hstep := ih
        ⟨w.entries,
          w.handles.set j { h with pos := h.pos + ((e.content.drop h.pos).take k).length }⟩
        { h with pos := h.pos + ((e.content.drop h.pos).take k).length }
        (by simp [hlt]) hst hd hl (by simp only [hlen]; omega) (by simp only [hlen]; omega)
      have hcat : (e.content.drop h.pos).take k ++
          e.content.drop (h.pos + ((e.content.drop h.pos).take k).length) =
          e.content.drop h.pos := by
        rw [← List.drop_drop]
        conv_rhs => rw [← List.take_append_drop k (e.content.drop h.pos)]
        congr 1
        rw [hlen]
        rcases Nat.le_total k (e.content.length - h.pos) with hle | hle
        · rw [Nat.min_eq_left hle]
        · rw [Nat.min_eq_right hle]
          rw [List.drop_eq_nil_of_le (by simp), List.drop_eq_nil_of_le (by simpa using hle)]
      revert hstep
      generalize readToEnd B.EOF (memFile B j) k fuel _ = r
      obtain ⟨r1, r2⟩ := r
      intro hstep
      simp only at hstep
      subst hstep
      rw [hlen] at hcat
      simp [hcat]


/-- Result of `Create` on a writable backend, at a path whose parent directory
exists. -/
theorem create_ok (B : Backend) (w : World) (name : String) (hrw : B.readOnly = false)
    (hparent : hasParentDir w.entries (canon name) = true) :
    (memFs B).Create name w =
      ((some (memFile B w.handles.length), none),
        ⟨putEntry (canon name)
            (match w.entries.lookup (canon name) with
              | some old => { old with isDir := false, content := [] }
              | none => ⟨false, [], B.createMode, 0, 0⟩)
            w.entries,
          w.handles ++ [⟨name, canon name, false, false, .openWritable, 0, 0⟩]⟩) := by
  simp [memFs, memCreate, hrw, hparent]

/-- A handle returned by `Create` shows that the backend is writable. -/
theorem create_some_writable (B : Backend) (w w1 : World) (name : String) (f : File World)
    (hc : (memFs B).Create name w = ((some f, none), w1)) : B.readOnly = false := by
  cases hro : B.readOnly with
  | false => rfl
  | true => simp [memFs, memCreate, hro] at hc

/-- C5: on the backend modelled from the specification, for every state, every
path whose parent directory exists and every byte sequence `b`: `Create`
returns a handle when the backend is writable; and whenever `Create` returns a
handle, `Write` of `b` on it writes all of `b`, `Close` returns nil, `Open` of
the same path returns a handle, and reading that handle to end-of-stream, with
a buffer of any positive size, yields exactly `b`. -/
theorem create_write_close_open_roundtrip (B : Backend) (w : World) (name : String)
    (b : List UInt8) (hparent : hasParentDir w.entries (canon name) = true) :
    (B.readOnly = false → ∃ f w1, (memFs B).Create name w = ((some f, none), w1)) ∧
    ∀ f w1, (memFs B).Create name w = ((some f, none), w1) →
      ∃ w2 w3 g w4,
        f.Write b w1 = (((b.length : Int), none), w2) ∧
        f.Close w2 = (none, w3) ∧
        (memFs B).Open name w3 = ((some g, none), w4) ∧
        ∀ k fuel, 0 < k → b.length < fuel → (readToEnd B.EOF g k fuel w4).1 = some b := by
  refine ⟨fun hrw => ⟨_, _, create_ok B w name hrw hparent⟩, ?_⟩
  intro f w1 hc
  have hrw := create_some_writable B w w1 name f hc
  rw [create_ok B w name hrw hparent] at hc
  have hf : memFile B w.handles.length = f := Option.some.inj (congrArg (fun x => x.1.1) hc)
  have hw1 := congrArg Prod.snd hc
  simp only at hw1
  subst hf
  subst hw1
  generalize hcre : (match w.entries.lookup (canon name) with
      | some old => ({ old with isDir := false, content := [] } : Entry)
      | none => ⟨false, [], B.createMode, 0, 0⟩) = e0
  have he0 : e0.content = [] ∧ e0.isDir = false := by
    subst hcre
    split <;> exact ⟨rfl, rfl⟩
  have hwrite := write_open B w.handles.length b
    ⟨putEntry (canon name) e0 w.entries,
      w.handles ++ [⟨name, canon name, false, false, .openWritable, 0, 0⟩]⟩
    ⟨name, canon name, false, false, .openWritable, 0, 0⟩ e0
    (by simp) rfl rfl (lookup_putEntry_self _ _ _)
  simp only [he0.1, writeBytes, Bool.false_eq_true, if_false] at hwrite
  simp only [List.take_nil, List.length_nil, Nat.sub_self, List.replicate_zero, List.nil_append,
    Nat.zero_add, List.drop_nil, List.append_nil] at hwrite
  have hclose := close_open B w.handles.length
    ⟨putEntry (canon name) { e0 with content := b } (putEntry (canon name) e0 w.entries),
      (w.handles ++ [(⟨name, canon name, false, false, .openWritable, 0, 0⟩ : Handle)]).set
        w.handles.length ⟨name, canon name, false, false, .openWritable, b.length, 0⟩⟩
    ⟨name, canon name, false, false, .openWritable, b.length, 0⟩ (by simp) (by simp)
  have hopen := open_ok B
    ⟨putEntry (canon name) { e0 with content := b } (putEntry (canon name) e0 w.entries),
      ((w.handles ++ [(⟨name, canon name, false, false, .openWritable, 0, 0⟩ : Handle)]).set
        w.handles.length ⟨name, canon name, false, false, .openWritable, b.length, 0⟩).set
        w.handles.length ⟨name, canon name, false, false, .closed, b.length, 0⟩⟩
    name { e0 with content := b } (lookup_putEntry_self _ _ _)
  refine ⟨_, _, _, _, hwrite, hclose, hopen, ?_⟩
  intro k fuel hk hfuel
  have hread := readToEnd_memFile B
    (((w.handles ++ [(⟨name, canon name, false, false, .openWritable, 0, 0⟩ : Handle)]).set
        w.handles.length
        (⟨name, canon name, false, false, .openWritable, b.length, 0⟩ : Handle)).set
      w.handles.length
      (⟨name, canon name, false, false, .closed, b.length, 0⟩ : Handle)).length
    k hk { e0 with content := b } fuel
    ⟨putEntry (canon name) { e0 with content := b } (putEntry (canon name) e0 w.entries),
      ((w.handles ++ [(⟨name, canon name, false, false, .openWritable, 0, 0⟩ : Handle)]).set
        w.handles.length ⟨name, canon name, false, false, .openWritable, b.length, 0⟩).set
        w.handles.length ⟨name, canon name, false, false, .closed, b.length, 0⟩ ++
        [⟨name, canon name, e0.isDir, false, .openReadable, 0, 0⟩]⟩
    ⟨name, canon name, e0.isDir, false, .openReadable, 0, 0⟩
    (List.getElem?_concat_length _ _) rfl he0.2 (lookup_putEntry_self _ _ _)
    (Nat.zero_le _) (by simpa using hfuel)
  simpa using hread

/-- Witness of C4: on the concrete backend at program start, the handle of a
new file `/f`, closed, then closed again, the file opened anew and the closed
handle sought. -/
theorem closed_is_absorbing_witness :
    memBackend.UsesSentinels startup.1 startup.2 ∧
    (memFile memBackend 0).Close openWorld = (none, closedWorld) ∧
    ((∀ n, ((memFile memBackend 0).Read n
          (runCalls memBackend [.fileClose 0, .fsOpen "/f", .fileSeek 0 0 0] closedWorld)).1 =
            ([], lookupVar startup.1 startup.2 "ErrFileClosed")) ∧
      (∀ b, ((memFile memBackend 0).Write b
          (runCalls memBackend [.fileClose 0, .fsOpen "/f", .fileSeek 0 0 0] closedWorld)).1 =
            (0, lookupVar startup.1 startup.2 "ErrFileClosed")) ∧
      (∀ offset whence, ((memFile memBackend 0).Seek offset whence
          (runCalls memBackend [.fileClose 0, .fsOpen "/f", .fileSeek 0 0 0] closedWorld)).1 =
            (0, lookupVar startup.1 startup.2 "ErrFileClosed")) ∧
      (∀ n off, ((memFile memBackend 0).ReadAt n off
          (runCalls memBackend [.fileClose 0, .fsOpen "/f", .fileSeek 0 0 0] closedWorld)).1.2 =
            lookupVar startup.1 startup.2 "ErrFileClosed") ∧
      (∀ b off, ((memFile memBackend 0).WriteAt b off
          (runCalls memBackend [.fileClose 0, .fsOpen "/f", .fileSeek 0 0 0] closedWorld)).1.2 =
            lookupVar startup.1 startup.2 "ErrFileClosed") ∧
      (∀ count, ((memFile memBackend 0).Readdir count
          (runCalls memBackend [.fileClose 0, .fsOpen "/f", .fileSeek 0 0 0] closedWorld)).1.2 =
            lookupVar startup.1 startup.2 "ErrFileClosed") ∧
      (∀ n, ((memFile memBackend 0).Readdirnames n
          (runCalls memBackend [.fileClose 0, .fsOpen "/f", .fileSeek 0 0 0] closedWorld)).1.2 =
            lookupVar startup.1 startup.2 "ErrFileClosed") ∧
      ((memFile memBackend 0).Stat
          (runCalls memBackend [.fileClose 0, .fsOpen "/f", .fileSeek 0 0 0] closedWorld)).1.2 =
            lookupVar startup.1 startup.2 "ErrFileClosed" ∧
      ((memFile memBackend 0).Sync
          (runCalls memBackend [.fileClose 0, .fsOpen "/f", .fileSeek 0 0 0] closedWorld)).1 =
            lookupVar startup.1 startup.2 "ErrFileClosed" ∧
      (∀ size, ((memFile memBackend 0).Truncate size
          (runCalls memBackend [.fileClose 0, .fsOpen "/f", .fileSeek 0 0 0] closedWorld)).1 =
            lookupVar startup.1 startup.2 "ErrFileClosed") ∧
      (∀ s, ((memFile memBackend 0).WriteString s
          (runCalls memBackend [.fileClose 0, .fsOpen "/f", .fileSeek 0 0 0] closedWorld)).1.2 =
            lookupVar startup.1 startup.2 "ErrFileClosed") ∧
      lookupVar startup.1 startup.2 "ErrFileClosed" =
        some ⟨startup.2.next, "File is closed"⟩) :=
  ⟨by decide, by decide,
    closed_is_absorbing startup.1 startup.2 memBackend (by decide) 0 openWorld closedWorld
      [.fileClose 0, .fsOpen "/f", .fileSeek 0 0 0] (by decide)⟩

/-- Witness of C5: the file `/f.txt` with the two bytes `hi`, in the namespace
that holds only the root. -/
theorem create_write_close_open_roundtrip_witness :
    hasParentDir rootWorld.entries (canon "/f.txt") = true ∧
    ((memBackend.readOnly = false →
        ∃ f w1, (memFs memBackend).Create "/f.txt" rootWorld = ((some f, none), w1)) ∧
    ∀ f w1, (memFs memBackend).Create "/f.txt" rootWorld = ((some f, none), w1) →
      ∃ w2 w3 g w4,
        f.Write [104, 105] w1 = (((([104, 105] : List UInt8).length : Int), none), w2) ∧
        f.Close w2 = (none, w3) ∧
        (memFs memBackend).Open "/f.txt" w3 = ((some g, none), w4) ∧
        ∀ k fuel, 0 < k → ([104, 105] : List UInt8).length < fuel →
          (readToEnd memBackend.EOF g k fuel w4).1 = some [104, 105]) :=
  ⟨by decide, create_write_close_open_roundtrip memBackend rootWorld "/f.txt" [104, 105]
    (by decide)⟩


end afero
